import Mathlib

/-!
# Verification of the clearview iXBRL extraction core

Shallow embedding of the extraction core of the `clearview` repository:

* `src/accounts_parser.py` — the main iXBRL parser (`parse_ixbrl`,
  `_parse_value`, `_match_concept`, `extract_financials_from_ixbrl`);
* `src/ec2_pipeline/parse_accounts_bulk.py` — the bulk parser
  (`extract_company_number`, `parse_value`, `parse_ixbrl_fast`);
* `src/ec2_pipeline/build_features.py` — the net-assets acceleration flag
  inside `build_financial_features`.

Modelling conventions:

* Python floats are modelled by `ℚ` (exact arithmetic): every value the
  decoder builds is a decimal number scaled by a power of ten, so `ℚ`
  represents it exactly.
* Python strings are modelled by `String` / `List Char`; "digit" means an
  ASCII digit (the documents are ASCII), Python's `str.lower` is modelled
  by `Char.toLower`, and Python string comparison by the code-point
  lexicographic order `lexLt` defined below.
* The markup library (BeautifulSoup) is out of scope: a document is
  modelled as the lists of context blocks and tagged numeric elements
  that the source's `find_all` traversals produce, in document order.
-/

attribute [local semireducible] Rat.mul Rat.add Rat.sub Rat.inv

set_option maxRecDepth 16000

namespace Clearview

/-! ## String helpers -/

/-- The characters the numeric decoders keep: ASCII digits, the decimal
point and the minus sign (models the regex class in the sources). -/
def isKept (c : Char) : Bool := c.isDigit || c == '.' || c == '-'

/-- Value of a list of ASCII digit characters, most significant first. -/
def digitsToNat (l : List Char) : Nat := l.foldl (fun a c => a * 10 + (c.toNat - 48)) 0

/-- Does `p` occur as a leading segment of `l`? -/
def leadsWith : List Char → List Char → Bool
  | [], _ => true
  | _ :: _, [] => false
  | p :: ps, c :: cs => p == c && leadsWith ps cs

/-- Does `p` occur as a trailing segment of `l` (Python `str.endswith`)? -/
def trailsWith (p l : List Char) : Bool := leadsWith p.reverse l.reverse

/-- Does `p` occur as a contiguous segment anywhere in `l`? -/
def hasSeq (p : List Char) : List Char → Bool
  | [] => p.isEmpty
  | c :: cs => leadsWith p (c :: cs) || hasSeq p cs

/-- Python string comparison `a < b`: code-point lexicographic order. -/
def lexLt : List Char → List Char → Bool
  | [], [] => false
  | [], _ :: _ => true
  | _ :: _, [] => false
  | a :: as, b :: bs =>
    if a.toNat < b.toNat then true
    else if b.toNat < a.toNat then false
    else lexLt as bs

/-- Lower-case a character list (Python `str.lower`, ASCII fragment). -/
def lowerL (l : List Char) : List Char := l.map Char.toLower

/-- The substring after the last `:`; models `name.split(":")[-1]`
(with the whole string when no `:` occurs). -/
def localNameOf (name : String) : List Char :=
  (name.data.reverse.takeWhile (fun c => c ≠ ':')).reverse

/-! ## Numeric Decoder

Model of `accounts_parser._parse_value` (lines 185–214).  The bulk
variant `parse_accounts_bulk.parse_value` (lines 146–172) has the same
cleaned-string / bracket / sign logic; its only textual differences
(computing `has_brackets` before the final strip, stripping parentheses
in a separate `replace` first, and skipping the multiplication when the
scale is zero) do not change the result, which `parse_value_bulk_eq`
below proves.

The decoders are NOT total in the sources: `value *= 10 ** scale` sits in
a `try` whose `except` clause catches only `ValueError` and `TypeError`,
and for a parsed scale `k ≥ 309` CPython raises an uncaught
`OverflowError` while converting the exact integer `10 ** k` to a float
(`10 ** 308 = 1e308` is below `DBL_MAX ≈ 1.7976e308`, `10 ** 309` is
above it).  That conversion is the only escaping-exception path: float
multiplication overflows silently to `inf`, string-to-float conversion
of a too-large numeral returns `inf` rather than raising, and a negative
scale goes through float `pow`, which only underflows (silently, to
`0.0`).  Two models are therefore given: `parse_value` /
`parse_value_bulk` return `Option ℚ` and model the NON-RAISING
executions (collapsing the error path — they are what the rest of the
pipeline consumes, and every other use either evaluates concrete
in-range inputs or conditions on successful decoding), while
`parse_valueE` / `parse_value_bulkE` return `Except Unit (Option ℚ)` and
model the escaping `OverflowError` as `Except.error ()` exactly when the
cleaned text parses and the scale parses to an integer `≥ 309`;
`parse_valueE_ok` proves the two models agree on every non-raising
execution. -/

/-- Python `float(body)` for a non-negative body over the alphabet
`{digit, '.', '-'}`: digits with at most one decimal point and at least
one digit; an embedded `-` makes it fail. -/
def pyFloatBody (body : List Char) : Option ℚ :=
  if body.all (fun c => c.isDigit || c == '.') ∧ body.count '.' ≤ 1 ∧ body.any Char.isDigit then
    let ip := body.takeWhile (fun c => c ≠ '.')
    let fp := (body.dropWhile (fun c => c ≠ '.')).drop 1
    some ((digitsToNat ip : ℚ) + (digitsToNat fp : ℚ) / (10 : ℚ) ^ fp.length)
  else none

/-- Python `float(s)` on cleaned strings: an optional leading minus sign,
then a decimal body. -/
def pyFloat : List Char → Option ℚ
  | '-' :: body => (pyFloatBody body).map (fun q => -q)
  | l => pyFloatBody l

/-- Python `int(s)` on attribute strings: optional sign, then digits. -/
def pyInt : List Char → Option ℤ
  | [] => none
  | '-' :: rest =>
    if rest ≠ [] ∧ rest.all Char.isDigit then some (-(digitsToNat rest : ℤ)) else none
  | '+' :: rest =>
    if rest ≠ [] ∧ rest.all Char.isDigit then some ((digitsToNat rest : ℤ)) else none
  | l => if l.all Char.isDigit then some ((digitsToNat l : ℤ)) else none

/-- `accounts_parser._parse_value(text, scale_str, sign, fmt)` (the `fmt`
argument is unused by the source), restricted to its non-raising
executions: the uncaught-`OverflowError` path (parsed scale ≥ 309) is
modelled faithfully by `parse_valueE` below.  `-abs(value)` is written
out as a conditional negation. -/
def parse_value (text scale_str sign : String) : Option ℚ :=
  let cleaned := text.data.filter isKept
  let has_brackets := text.data.contains '(' && text.data.contains ')'
  if cleaned.isEmpty || cleaned == ['-'] || cleaned == ['.'] then none
  else
    match pyFloat cleaned with
    | none => none
    | some v =>
      let scaled := match pyInt scale_str.data with
        | some k => v * (10 : ℚ) ^ k
        | none => v
      some (if sign == "-" || has_brackets then (if 0 ≤ scaled then -scaled else scaled) else scaled)

/-- `parse_accounts_bulk.parse_value`, embedded separately so the two
sources can be compared: it multiplies only when the scale is nonzero.
Like `parse_value`, this is the non-raising restriction; the escaping
`OverflowError` is modelled by `parse_value_bulkE` below. -/
def parse_value_bulk (text scale_str sign : String) : Option ℚ :=
  let cleaned := text.data.filter isKept
  let has_brackets := text.data.contains '(' && text.data.contains ')'
  if cleaned.isEmpty || cleaned == ['.'] || cleaned == ['-'] then none
  else
    match pyFloat cleaned with
    | none => none
    | some v =>
      let scaled := match pyInt scale_str.data with
        | some k => if k ≠ 0 then v * (10 : ℚ) ^ k else v
        | none => v
      some (if sign == "-" || has_brackets then (if 0 ≤ scaled then -scaled else scaled) else scaled)

theorem parse_value_bulk_eq (text scale_str sign : String) :
    parse_value_bulk text scale_str sign = parse_value text scale_str sign := by
  unfold parse_value_bulk parse_value
  simp only
  by_cases h1 : (text.data.filter isKept).isEmpty
  · simp [h1]
  · by_cases h2 : text.data.filter isKept == ['-'] <;>
    by_cases h3 : text.data.filter isKept == ['.'] <;>
      simp only [h1, h2, h3, Bool.false_or, Bool.or_false, Bool.true_or, Bool.or_true,
        if_true, if_false] <;>
      cases hf : pyFloat (text.data.filter isKept) <;> try rfl
    all_goals
      cases hi : pyInt scale_str.data with
      | none => rfl
      | some k =>
        by_cases hk : k = 0
        · subst hk; norm_num
        · simp [hk]

/-- `accounts_parser._parse_value` with the error path: `Except.error ()`
models the `OverflowError` that escapes the `except (ValueError,
TypeError)` handler when the cleaned text has parsed as a number and the
scale string parses to an integer `k ≥ 309` (the source reaches
`value *= 10 ** scale` only after a successful `float(cleaned)`, and
`float(10 ** k)` overflows a double exactly for `k ≥ 309`). -/
def parse_valueE (text scale_str sign : String) : Except Unit (Option ℚ) :=
  let cleaned := text.data.filter isKept
  let has_brackets := text.data.contains '(' && text.data.contains ')'
  if cleaned.isEmpty || cleaned == ['-'] || cleaned == ['.'] then .ok none
  else
    match pyFloat cleaned with
    | none => .ok none
    | some v =>
      match pyInt scale_str.data with
      | some k =>
        if 309 ≤ k then .error ()
        else
          .ok (some (if sign == "-" || has_brackets then
            (if 0 ≤ v * (10 : ℚ) ^ k then -(v * (10 : ℚ) ^ k) else v * (10 : ℚ) ^ k)
          else v * (10 : ℚ) ^ k))
      | none =>
        .ok (some (if sign == "-" || has_brackets then (if 0 ≤ v then -v else v) else v))

/-- `parse_accounts_bulk.parse_value` with the error path: the bulk
source guards the multiplication with `if scale != 0`, so the
`OverflowError` arises under the same condition (a parsed scale ≥ 309 is
in particular nonzero). -/
def parse_value_bulkE (text scale_str sign : String) : Except Unit (Option ℚ) :=
  let cleaned := text.data.filter isKept
  let has_brackets := text.data.contains '(' && text.data.contains ')'
  if cleaned.isEmpty || cleaned == ['.'] || cleaned == ['-'] then .ok none
  else
    match pyFloat cleaned with
    | none => .ok none
    | some v =>
      match pyInt scale_str.data with
      | some k =>
        if k ≠ 0 then
          if 309 ≤ k then .error ()
          else
            .ok (some (if sign == "-" || has_brackets then
              (if 0 ≤ v * (10 : ℚ) ^ k then -(v * (10 : ℚ) ^ k) else v * (10 : ℚ) ^ k)
            else v * (10 : ℚ) ^ k))
        else .ok (some (if sign == "-" || has_brackets then (if 0 ≤ v then -v else v) else v))
      | none =>
        .ok (some (if sign == "-" || has_brackets then (if 0 ≤ v then -v else v) else v))

theorem parse_value_bulkE_eq (text scale_str sign : String) :
    parse_value_bulkE text scale_str sign = parse_valueE text scale_str sign := by
  unfold parse_value_bulkE parse_valueE
  simp only
  by_cases h1 : (text.data.filter isKept).isEmpty
  · simp [h1]
  · by_cases h2 : text.data.filter isKept == ['-'] <;>
    by_cases h3 : text.data.filter isKept == ['.'] <;>
      simp only [h1, h2, h3, Bool.false_or, Bool.or_false, Bool.true_or, Bool.or_true,
        if_true, if_false] <;>
      cases hf : pyFloat (text.data.filter isKept) <;> try rfl
    all_goals
      cases hi : pyInt scale_str.data with
      | none => rfl
      | some k =>
        by_cases hk : k = 0
        · subst hk; norm_num
        · by_cases hk309 : 309 ≤ k
          · simp [hk, hk309]
          · simp [hk, hk309]

/-! ## Concept Mapper

`accounts_parser.CONCEPT_MAP` (lines 25–98) and `_match_concept`
(lines 217–225), transcribed verbatim. -/

def CONCEPT_MAP : String → List String
  | "turnover" =>
    ["Turnover", "TurnoverRevenue", "Revenue",
     "TurnoverGrossIncome", "RevenueFromContractsWithCustomers"]
  | "cost_of_sales" => ["CostSales", "CostOfSales"]
  | "gross_profit" => ["GrossProfitLoss", "GrossProfit"]
  | "ebit" =>
    ["OperatingProfitLoss", "OperatingProfit",
     "ProfitLossOnOrdinaryActivitiesBeforeInterestAndTax",
     "ProfitLossBeforeInterestPayableSimilarCharges",
     "ProfitLossBeforeTax"]
  | "net_profit" =>
    ["ProfitLossForPeriod", "ProfitLossForYear",
     "ProfitLossForFinancialYear",
     "RetainedProfitLossForFinancialYear",
     "ProfitLoss", "ProfitLossAttributableToOwnersOfParent"]
  | "total_assets" => ["TotalAssets", "TotalAssetsLessCurrentLiabilities"]
  | "fixed_assets" =>
    ["FixedAssets", "NonCurrentAssets", "TangibleFixedAssets",
     "IntangibleFixedAssets"]
  | "current_assets" => ["CurrentAssets", "TotalCurrentAssets"]
  | "total_liabilities" => ["TotalLiabilities"]
  | "current_liabilities" =>
    ["CreditorsDueWithinOneYear", "CurrentLiabilities",
     "CreditorAmountsFallingDueWithinOneYear"]
  | "non_current_liabilities" =>
    ["CreditorsDueAfterOneYear", "NonCurrentLiabilities",
     "CreditorsAmountsFallingDueAfterMoreThanOneYear",
     "CreditorAmountsFallingDueAfterOneYear"]
  | "net_assets" =>
    ["NetAssetsLiabilities", "NetAssets",
     "TotalNetAssets", "NetAssetsIncludingPensionAssetLiability"]
  | "cash" =>
    ["CashBankInHand", "CashCashEquivalents",
     "CashAtBankInHand", "CashBankOnHand"]
  | "retained_earnings" =>
    ["RetainedEarningsAccumulatedLosses",
     "ProfitLossAccountReserve",
     "RetainedEarnings"]
  | "employees" =>
    ["AverageNumberEmployeesDuringPeriod",
     "EntityAverageNumberOfEmployees",
     "AverageNumberOfEmployees",
     "EmployeesTotal"]
  | "creditors_due_within_year" =>
    ["CreditorsDueWithinOneYear",
     "CreditorAmountsFallingDueWithinOneYear",
     "CurrentLiabilities"]
  | "share_capital" =>
    ["CalledUpShareCapital", "ShareCapital",
     "CalledUpShareCapitalNotPaid"]
  | _ => []

/-- `_match_concept`: case-insensitive equality with, or suffix match
against, any of the field's recognised concept names. -/
def match_concept (local_name field : String) : Bool :=
  let ln := lowerL local_name.data
  (CONCEPT_MAP field).any (fun t => ln == lowerL t.data || trailsWith (lowerL t.data) ln)

/-! ## Document model

A document is the result of the source's `find_all` traversals: the list
of context blocks and the list of `ix:nonFraction`/`ix:nonNumeric` tags,
in document order.  An `Option String` field is `some s` when the
corresponding sub-tag was found (with stripped text `s`); attribute
fields carry the `tag.get(..., default)` result. -/

structure PeriodBlock where
  startDate : Option String
  endDate : Option String
  instant : Option String
deriving DecidableEq

structure ContextBlock where
  id : Option String
  period : Option PeriodBlock
  segment : Bool
deriving DecidableEq

structure FactTag where
  name : String
  contextRef : String
  sign : String
  scale : String
  text : String
deriving DecidableEq

structure Document where
  contexts : List ContextBlock
  facts : List FactTag
deriving DecidableEq

/-- The per-context `info` dict built by `parse_ixbrl` (lines 130–146):
`startDate`/`endDate` are set together, else `instant`, else nothing. -/
structure CtxInfo where
  startDate : Option String
  endDate : Option String
  instant : Option String
  has_dimension : Bool
deriving DecidableEq

def mkCtxInfo (p : PeriodBlock) (seg : Bool) : CtxInfo :=
  if p.startDate.isSome ∧ p.endDate.isSome then ⟨p.startDate, p.endDate, none, seg⟩
  else if p.instant.isSome then ⟨none, none, p.instant, seg⟩
  else ⟨none, none, none, seg⟩

/-- Insertion-ordered dict update (Python dict assignment: a present key
keeps its position, a new key goes to the end). -/
def dictInsert {α : Type} (m : List (String × α)) (k : String) (v : α) : List (String × α) :=
  if m.any (fun p => p.1 == k) then m.map (fun p => if p.1 == k then (k, v) else p)
  else m ++ [(k, v)]

/-- Python `m.get(k)` / `k in m`. -/
def dictFind {α : Type} (k : String) : List (String × α) → Option α
  | [] => none
  | (k', v) :: rest => if k' == k then some v else dictFind k rest

structure Fact where
  concept : String
  context_ref : String
  value : ℚ
deriving DecidableEq

structure ParsedDoc where
  contexts : List (String × CtxInfo)
  facts : List Fact
deriving DecidableEq

/-- `accounts_parser.parse_ixbrl` (lines 101–182): contexts lacking an id
or a period block are skipped; facts with empty text or name are skipped,
as are facts whose value fails to decode. -/
def parse_ixbrl (doc : Document) : ParsedDoc where
  contexts := doc.contexts.foldl (fun acc ctx =>
    match ctx.id with
    | none => acc
    | some cid =>
      match ctx.period with
      | none => acc
      | some p => dictInsert acc cid (mkCtxInfo p ctx.segment)) []
  facts := doc.facts.filterMap (fun t =>
    if t.text == "" || t.name == "" then none
    else (parse_value t.text t.scale t.sign).map
      (fun v => { concept := ⟨localNameOf t.name⟩, context_ref := t.contextRef, value := v }))

/-! ## Period Record Builder

`extract_financials_from_ixbrl` (lines 228–349). -/

structure PeriodRecord where
  period_end : String
  year : String
  turnover : Option ℚ
  cost_of_sales : Option ℚ
  gross_profit : Option ℚ
  ebit : Option ℚ
  net_profit : Option ℚ
  total_assets : Option ℚ
  current_assets : Option ℚ
  fixed_assets : Option ℚ
  total_liabilities : Option ℚ
  current_liabilities : Option ℚ
  non_current_liabilities : Option ℚ
  net_assets : Option ℚ
  cash : Option ℚ
  retained_earnings : Option ℚ
  employees : Option ℚ
  creditors_due_within_year : Option ℚ
  share_capital : Option ℚ
deriving DecidableEq

/-- The 17 canonical field values, in the source's dict-insertion order
(`fields_to_extract`). -/
def PeriodRecord.fieldValues (r : PeriodRecord) : List (Option ℚ) :=
  [r.turnover, r.cost_of_sales, r.gross_profit, r.ebit, r.net_profit, r.total_assets,
   r.current_assets, r.fixed_assets, r.total_liabilities, r.current_liabilities,
   r.non_current_liabilities, r.net_assets, r.cash, r.retained_earnings, r.employees,
   r.creditors_due_within_year, r.share_capital]

/-- `sum(1 for v in record.values() if v is not None)`: the dict also
holds the two never-null strings `period_end` and `year`. -/
def PeriodRecord.dataCount (r : PeriodRecord) : Nat :=
  2 + r.fieldValues.countP (fun v => v.isSome)

/-- First fact (in document order) whose context is in `ctxIds` and whose
concept matches the field (lines 302–305). -/
def findValue (facts : List Fact) (ctxIds : List String) (field : String) : Option ℚ :=
  (facts.find? (fun f => ctxIds.contains f.context_ref && match_concept f.concept field)).map
    (fun f => f.value)

/-- The duration-preferring fields (line 293). -/
def isDurationField (field : String) : Bool :=
  field == "turnover" || field == "cost_of_sales" || field == "gross_profit" ||
  field == "ebit" || field == "net_profit" || field == "employees"

/-- Field selection (lines 290–307): search the affinity contexts first,
then fall back to all the period's contexts. -/
def fieldValueFor (facts : List Fact) (dur inst : List String) (field : String) : Option ℚ :=
  let relevant := if isDurationField field then dur else inst
  match findValue facts relevant field with
  | some v => some v
  | none => findValue facts (dur ++ inst) field

def buildRecord (facts : List Fact) (dur inst : List String) (pe : String) : PeriodRecord :=
  let g := fieldValueFor facts dur inst
  { period_end := pe
    year := ⟨pe.data.take 4⟩
    turnover := g "turnover"
    cost_of_sales := g "cost_of_sales"
    gross_profit := g "gross_profit"
    ebit := g "ebit"
    net_profit := g "net_profit"
    total_assets := g "total_assets"
    current_assets := g "current_assets"
    fixed_assets := g "fixed_assets"
    total_liabilities := g "total_liabilities"
    current_liabilities := g "current_liabilities"
    non_current_liabilities := g "non_current_liabilities"
    net_assets := g "net_assets"
    cash := g "cash"
    retained_earnings := g "retained_earnings"
    employees := g "employees"
    creditors_due_within_year := g "creditors_due_within_year"
    share_capital := g "share_capital" }

/-- The derived fields (lines 309–326), as three sequential updates.
`record.get(f) or 0` maps both a missing value and an exact zero to `0`,
which is `Option.getD 0` here; the guards `if cl or ncl` / `if fa or ca`
are Python truthiness, i.e. "nonzero". -/
def deriveLiab (r : PeriodRecord) : PeriodRecord :=
  if r.total_liabilities = none then
    if r.current_liabilities.getD 0 ≠ 0 ∨ r.non_current_liabilities.getD 0 ≠ 0 then
      { r with
          total_liabilities := some (r.current_liabilities.getD 0 + r.non_current_liabilities.getD 0) }
    else r
  else r

def deriveAssets (r : PeriodRecord) : PeriodRecord :=
  if r.total_assets = none then
    if r.fixed_assets.getD 0 ≠ 0 ∨ r.current_assets.getD 0 ≠ 0 then
      { r with total_assets := some (r.fixed_assets.getD 0 + r.current_assets.getD 0) }
    else r
  else r

def deriveCreditors (r : PeriodRecord) : PeriodRecord :=
  if r.creditors_due_within_year = none then
    { r with creditors_due_within_year := r.current_liabilities }
  else r

def applyDerived (r : PeriodRecord) : PeriodRecord :=
  deriveCreditors (deriveAssets (deriveLiab r))

theorem deriveLiab_total_assets (r : PeriodRecord) :
    (deriveLiab r).total_assets = r.total_assets := by
  unfold deriveLiab; split_ifs <;> rfl

theorem deriveLiab_fixed_assets (r : PeriodRecord) :
    (deriveLiab r).fixed_assets = r.fixed_assets := by
  unfold deriveLiab; split_ifs <;> rfl

theorem deriveLiab_current_assets (r : PeriodRecord) :
    (deriveLiab r).current_assets = r.current_assets := by
  unfold deriveLiab; split_ifs <;> rfl

theorem deriveAssets_total_liabilities (r : PeriodRecord) :
    (deriveAssets r).total_liabilities = r.total_liabilities := by
  unfold deriveAssets; split_ifs <;> rfl

theorem deriveCreditors_total_assets (r : PeriodRecord) :
    (deriveCreditors r).total_assets = r.total_assets := by
  unfold deriveCreditors; split_ifs <;> rfl

theorem deriveCreditors_total_liabilities (r : PeriodRecord) :
    (deriveCreditors r).total_liabilities = r.total_liabilities := by
  unfold deriveCreditors; split_ifs <;> rfl

/-- The minimum-presence gate (lines 328–334). -/
def hasData (r : PeriodRecord) : Bool :=
  r.total_assets.isSome || r.net_assets.isSome || r.current_assets.isSome || r.turnover.isSome

/-! ## Grouping contexts into periods (lines 249–267) -/

structure CtxGroups where
  duration : List String
  instant : List String
deriving DecidableEq

def addCtxToPeriods (ps : List (String × CtxGroups)) (key cid : String) (isDur : Bool) :
    List (String × CtxGroups) :=
  if ps.any (fun p => p.1 == key) then
    ps.map (fun p =>
      if p.1 == key then
        (key, if isDur then { p.2 with duration := p.2.duration ++ [cid] }
              else { p.2 with instant := p.2.instant ++ [cid] })
      else p)
  else ps ++ [(key, if isDur then ⟨[cid], []⟩ else ⟨[], [cid]⟩)]

def groupPeriods (contexts : List (String × CtxInfo)) : List (String × CtxGroups) :=
  contexts.foldl (fun ps p =>
    if p.2.has_dimension then ps
    else
      match p.2.endDate with
      | some e => addCtxToPeriods ps e p.1 true
      | none =>
        match p.2.instant with
        | some i => addCtxToPeriods ps i p.1 false
        | none => ps) []

/-- "key of `a` is not below key of `b`": the descending order used by
`sorted(periods.items(), reverse=True)` (keys are distinct, so the tuple
comparison never reaches the values). -/
def periodsGE {α : Type} (a b : String × α) : Prop := lexLt a.1.data b.1.data = false

instance {α : Type} : DecidableRel (@periodsGE α) :=
  fun a b => inferInstanceAs (Decidable (lexLt a.1.data b.1.data = false))

def sortedPeriods (ps : List (String × CtxGroups)) : List (String × CtxGroups) :=
  List.insertionSort periodsGE ps

/-- One pass of the per-period loop body (lines 272–334). -/
def recordOfPeriod (facts : List Fact) (p : String × CtxGroups) : Option PeriodRecord :=
  if (p.2.duration ++ p.2.instant).isEmpty then none
  else
    let r := applyDerived (buildRecord facts p.2.duration p.2.instant p.1)
    if hasData r then some r else none

/-! ## Multi-Year Reducer (lines 336–349) -/

def dedupStep (acc : List (String × PeriodRecord)) (r : PeriodRecord) :
    List (String × PeriodRecord) :=
  match dictFind r.year acc with
  | none => acc ++ [(r.year, r)]
  | some ex =>
    if ex.dataCount < r.dataCount then
      acc.map (fun p => if p.1 == r.year then (r.year, r) else p)
    else acc

def by_year (results : List PeriodRecord) : List (String × PeriodRecord) :=
  results.foldl dedupStep []

/-- "year of `a` is not below year of `b`": the descending order used by
`sorted(by_year.values(), key=lambda x: x["year"], reverse=True)`. -/
def recordYearGE (a b : PeriodRecord) : Prop := lexLt a.year.data b.year.data = false

instance : DecidableRel recordYearGE :=
  fun a b => inferInstanceAs (Decidable (lexLt a.year.data b.year.data = false))

def reduceMultiYear (results : List PeriodRecord) : List PeriodRecord :=
  (List.insertionSort recordYearGE ((by_year results).map (fun p => p.2))).take 4

/-- `extract_financials_from_ixbrl` (lines 228–349). -/
def extract_financials_from_ixbrl (doc : Document) : List PeriodRecord :=
  let parsed := parse_ixbrl doc
  if parsed.facts.isEmpty then []
  else
    reduceMultiYear
      ((sortedPeriods (groupPeriods parsed.contexts)).filterMap (recordOfPeriod parsed.facts))

/-! ## Concrete documents for the explicit spec scenarios -/

/-- The §8 end-to-end scenario document: one duration context
`2023-01-01 → 2023-12-31` with a turnover fact `"1,234"` at scale `"3"`,
one instant context `2023-12-31` with a net-assets fact `"(500)"`. -/
def scenarioDoc : Document where
  contexts :=
    [ { id := some "d1", period := some ⟨some "2023-01-01", some "2023-12-31", none⟩,
        segment := false },
      { id := some "i1", period := some ⟨none, none, some "2023-12-31"⟩, segment := false } ]
  facts :=
    [ { name := "uk:Turnover", contextRef := "d1", sign := "", scale := "3", text := "1,234" },
      { name := "uk:NetAssetsLiabilities", contextRef := "i1", sign := "", scale := "0",
        text := "(500)" } ]

/-- The record the scenario is expected to produce. -/
def scenarioRecord : PeriodRecord where
  period_end := "2023-12-31"
  year := "2023"
  turnover := some 1234000
  cost_of_sales := none
  gross_profit := none
  ebit := none
  net_profit := none
  total_assets := none
  current_assets := none
  fixed_assets := none
  total_liabilities := none
  current_liabilities := none
  non_current_liabilities := none
  net_assets := some (-500)
  cash := none
  retained_earnings := none
  employees := none
  creditors_due_within_year := none
  share_capital := none

/-! ## Order lemmas for the lexicographic string comparison -/

theorem charEq_of_toNat {a b : Char} (h : a.toNat = b.toNat) : a = b := by
  cases a; cases b
  simp only [Char.toNat] at h
  congr 1
  exact UInt32.ext h

theorem lexLt_asymm : ∀ {a b : List Char}, lexLt a b = true → lexLt b a = false
  | [], [], h => by simp [lexLt] at h
  | [], _ :: _, _ => by simp [lexLt]
  | _ :: _, [], h => by simp [lexLt] at h
  | a :: as, b :: bs, h => by
    unfold lexLt at h ⊢
    by_cases h1 : a.toNat < b.toNat
    · simp [h1, Nat.lt_asymm h1]
    · by_cases h2 : b.toNat < a.toNat
      · simp [h1, h2] at h
      · simp only [h1, h2, if_false] at h ⊢
        exact lexLt_asymm h

theorem lexLt_irrefl (a : List Char) : lexLt a a = false := by
  cases h : lexLt a a
  · rfl
  · have := (lexLt_asymm h).symm.trans h
    simp at this

theorem lexLt_antisymm : ∀ {a b : List Char}, lexLt a b = false → lexLt b a = false → a = b
  | [], [], _, _ => rfl
  | [], _ :: _, h, _ => by simp [lexLt] at h
  | _ :: _, [], _, h' => by simp [lexLt] at h'
  | a :: as, b :: bs, h, h' => by
    unfold lexLt at h h'
    by_cases h1 : a.toNat < b.toNat
    · simp [h1] at h
    · by_cases h2 : b.toNat < a.toNat
      · simp [h1, h2] at h'
      · simp only [h1, h2, if_false] at h h'
        have hab : a = b :=
          charEq_of_toNat (Nat.le_antisymm (Nat.not_lt.1 h2) (Nat.not_lt.1 h1))
        rw [hab, lexLt_antisymm h h']

theorem lexLt_trans : ∀ {a b c : List Char},
    lexLt a b = true → lexLt b c = true → lexLt a c = true
  | [], [], _, h, _ => by simp [lexLt] at h
  | [], _ :: _, [], _, h' => by simp [lexLt] at h'
  | [], _ :: _, _ :: _, _, _ => by simp [lexLt]
  | _ :: _, [], _, h, _ => by simp [lexLt] at h
  | _ :: _, _ :: _, [], _, h' => by simp [lexLt] at h'
  | a :: as, b :: bs, c :: cs, h, h' => by
    unfold lexLt at h h' ⊢
    by_cases h1 : a.toNat < b.toNat
    · by_cases h2 : b.toNat < c.toNat
      · simp [Nat.lt_trans h1 h2]
      · by_cases h3 : c.toNat < b.toNat
        · simp [h2, h3] at h'
        · have : b.toNat = c.toNat := Nat.le_antisymm (Nat.not_lt.1 h3) (Nat.not_lt.1 h2)
          simp [this] at h1
          simp [h1]
    · by_cases h2 : b.toNat < a.toNat
      · simp [h1, h2] at h
      · have hab : a.toNat = b.toNat := Nat.le_antisymm (Nat.not_lt.1 h2) (Nat.not_lt.1 h1)
        simp only [h1, h2, if_false] at h
        by_cases h3 : b.toNat < c.toNat
        · simp [hab, h3]
        · by_cases h4 : c.toNat < b.toNat
          · simp [h3, h4] at h'
          · simp only [h3, h4, if_false] at h'
            simp only [hab, h3, h4, if_false]
            exact lexLt_trans h h'

theorem lexGe_total (a b : List Char) : lexLt a b = false ∨ lexLt b a = false := by
  cases h : lexLt a b
  · exact Or.inl rfl
  · exact Or.inr (lexLt_asymm h)

theorem lexGe_trans {a b c : List Char}
    (h1 : lexLt a b = false) (h2 : lexLt b c = false) : lexLt a c = false := by
  cases hac : lexLt a c
  · rfl
  · cases hcb : lexLt c b
    · have hbc : b = c := lexLt_antisymm h2 hcb
      rw [hbc] at h1
      rw [h1] at hac
      simp at hac
    · have hab : lexLt a b = true := lexLt_trans hac hcb
      rw [hab] at h1
      simp at h1

instance : IsTotal PeriodRecord recordYearGE :=
  ⟨fun a b => lexGe_total a.year.data b.year.data⟩

instance : IsTrans PeriodRecord recordYearGE :=
  ⟨fun _ _ _ h1 h2 => lexGe_trans h1 h2⟩

instance {α : Type} : IsTotal (String × α) periodsGE :=
  ⟨fun a b => lexGe_total a.1.data b.1.data⟩

instance {α : Type} : IsTrans (String × α) periodsGE :=
  ⟨fun _ _ _ h1 h2 => lexGe_trans h1 h2⟩

/-! ## Dict lemmas -/

theorem dictFind_none {α : Type} {k : String} :
    ∀ {m : List (String × α)}, dictFind k m = none → ∀ p ∈ m, p.1 ≠ k
  | [], _, p, hp => absurd hp (List.not_mem_nil p)
  | (k', v) :: rest, h, p, hp => by
    unfold dictFind at h
    by_cases hk : k' = k
    · simp [hk] at h
    · rcases List.mem_cons.1 hp with h1 | h1
      · subst h1; simpa using hk
      · exact dictFind_none (by simpa [hk] using h) p h1

theorem dictFind_some_mem {α : Type} {k : String} {v : α} :
    ∀ {m : List (String × α)}, dictFind k m = some v → (k, v) ∈ m
  | [], h => by simp [dictFind] at h
  | (k', v') :: rest, h => by
    unfold dictFind at h
    by_cases hk : k' = k
    · subst hk
      simp only [beq_self_eq_true, if_true, Option.some.injEq] at h
      subst h
      exact List.mem_cons_self _ _
    · exact List.mem_cons_of_mem _ (dictFind_some_mem (by simpa [hk] using h))

theorem key_unique {acc : List (String × PeriodRecord)} (hnd : (acc.map Prod.fst).Nodup)
    {p q : String × PeriodRecord} (hp : p ∈ acc) (hq : q ∈ acc) (hk : p.1 = q.1) : p = q :=
  List.inj_on_of_nodup_map hnd hp hq hk

/-! ## The Multi-Year Reducer invariant

For the fold that builds `by_year`: after processing the prefix `done`,
every entry of the accumulator is keyed by its record's year, keys are
unique, each kept record is a processed record of maximal `dataCount`
among the processed records of its year, and it is the first such
maximal record in encounter order; every processed year has an entry. -/

structure DedupInv (acc : List (String × PeriodRecord)) (done : List PeriodRecord) : Prop where
  keyed : ∀ p ∈ acc, p.2.year = p.1
  nodupKeys : (acc.map Prod.fst).Nodup
  memDone : ∀ p ∈ acc, p.2 ∈ done
  maxCount : ∀ p ∈ acc, ∀ r' ∈ done, r'.year = p.1 → r'.dataCount ≤ p.2.dataCount
  firstWins : ∀ p ∈ acc, ∃ l1 l2, done = l1 ++ p.2 :: l2 ∧
      ∀ r' ∈ l1, r'.year = p.1 → r'.dataCount < p.2.dataCount
  covers : ∀ r' ∈ done, ∃ p ∈ acc, p.1 = r'.year

theorem dedupStep_inv {acc : List (String × PeriodRecord)} {done : List PeriodRecord}
    (a : PeriodRecord) (h : DedupInv acc done) :
    DedupInv (dedupStep acc a) (done ++ [a]) := by
  unfold dedupStep
  cases hf : dictFind a.year acc with
  | none =>
    have hnone : ∀ p ∈ acc, p.1 ≠ a.year := dictFind_none hf
    have hyears : ∀ r' ∈ done, r'.year ≠ a.year := by
      intro r' hr' hy
      obtain ⟨p, hp, hpk⟩ := h.covers r' hr'
      exact hnone p hp (hpk.trans hy)
    refine ⟨?_, ?_, ?_, ?_, ?_, ?_⟩
    · intro p hp
      rcases List.mem_append.1 hp with h1 | h1
      · exact h.keyed p h1
      · simp at h1; subst h1; rfl
    · rw [List.map_append]
      refine List.Nodup.append h.nodupKeys (List.nodup_singleton _) ?_
      intro k hk1 hk2
      simp at hk2
      obtain ⟨p, hp, hpk⟩ := List.mem_map.1 hk1
      exact hnone p hp (hpk.trans hk2)
    · intro p hp
      rcases List.mem_append.1 hp with h1 | h1
      · exact List.mem_append_left _ (h.memDone p h1)
      · simp at h1; subst h1
        exact List.mem_append_right _ (List.mem_singleton_self a)
    · intro p hp r' hr' hy
      rcases List.mem_append.1 hp with h1 | h1
      · rcases List.mem_append.1 hr' with h2 | h2
        · exact h.maxCount p h1 r' h2 hy
        · simp at h2; subst r'
          exact absurd (hy.symm ▸ rfl : p.1 = a.year) (hnone p h1)
      · simp at h1; subst h1
        rcases List.mem_append.1 hr' with h2 | h2
        · exact absurd hy (hyears r' h2)
        · simp at h2; subst r'; exact Nat.le_refl _
    · intro p hp
      rcases List.mem_append.1 hp with h1 | h1
      · obtain ⟨l1, l2, hd, hlt⟩ := h.firstWins p h1
        exact ⟨l1, l2 ++ [a], by rw [hd]; simp, hlt⟩
      · simp at h1; subst h1
        refine ⟨done, [], by simp, ?_⟩
        intro r' hr' hy
        exact absurd hy (hyears r' hr')
    · intro r' hr'
      rcases List.mem_append.1 hr' with h1 | h1
      · obtain ⟨p, hp, hpk⟩ := h.covers r' h1
        exact ⟨p, List.mem_append_left _ hp, hpk⟩
      · simp at h1; subst r'
        exact ⟨(a.year, a), List.mem_append_right _ (List.mem_singleton_self _), rfl⟩
  | some ex =>
    have hmem : (a.year, ex) ∈ acc := dictFind_some_mem hf
    by_cases hc : ex.dataCount < a.dataCount
    · simp only [hc, if_true]
      have hfst : (acc.map (fun p => if p.1 == a.year then (a.year, a) else p)).map Prod.fst
          = acc.map Prod.fst := by
        rw [List.map_map]
        apply List.map_congr_left
        intro p _
        by_cases hpk : p.1 = a.year
        · simp [hpk]
        · simp [hpk]
      have himg : ∀ q ∈ acc.map (fun p => if p.1 == a.year then (a.year, a) else p),
          q = (a.year, a) ∨ (q ∈ acc ∧ q.1 ≠ a.year) := by
        intro q hq
        obtain ⟨p, hp, hpq⟩ := List.mem_map.1 hq
        by_cases hpk : p.1 = a.year
        · left; rw [← hpq]; simp [hpk]
        · right
          rw [← hpq]
          simp only [hpk, beq_iff_eq, if_neg hpk]
          exact ⟨hp, hpk⟩
      have hnew : (a.year, a) ∈ acc.map (fun p => if p.1 == a.year then (a.year, a) else p) := by
        refine List.mem_map.2 ⟨(a.year, ex), hmem, ?_⟩
        simp
      refine ⟨?_, ?_, ?_, ?_, ?_, ?_⟩
      · intro p hp
        rcases himg p hp with h1 | ⟨h1, _⟩
        · subst h1; rfl
        · exact h.keyed p h1
      · rw [hfst]; exact h.nodupKeys
      · intro p hp
        rcases himg p hp with h1 | ⟨h1, _⟩
        · subst h1
          exact List.mem_append_right _ (List.mem_singleton_self a)
        · exact List.mem_append_left _ (h.memDone p h1)
      · intro p hp r' hr' hy
        rcases himg p hp with h1 | ⟨h1, hk1⟩
        · subst h1
          rcases List.mem_append.1 hr' with h2 | h2
          · exact Nat.le_of_lt (Nat.lt_of_le_of_lt (h.maxCount _ hmem r' h2 hy) hc)
          · simp at h2; subst r'; exact Nat.le_refl _
        · rcases List.mem_append.1 hr' with h2 | h2
          · exact h.maxCount p h1 r' h2 hy
          · simp at h2; subst r'
            exact absurd (hy.symm ▸ rfl : p.1 = a.year) hk1
      · intro p hp
        rcases himg p hp with h1 | ⟨h1, hk1⟩
        · subst h1
          refine ⟨done, [], by simp, ?_⟩
          intro r' hr' hy
          exact Nat.lt_of_le_of_lt (h.maxCount _ hmem r' hr' hy) hc
        · obtain ⟨l1, l2, hd, hlt⟩ := h.firstWins p h1
          exact ⟨l1, l2 ++ [a], by rw [hd]; simp, hlt⟩
      · intro r' hr'
        rcases List.mem_append.1 hr' with h1 | h1
        · obtain ⟨p, hp, hpk⟩ := h.covers r' h1
          by_cases hpk2 : p.1 = a.year
          · exact ⟨(a.year, a), hnew, hpk2 ▸ hpk⟩
          · refine ⟨p, List.mem_map.2 ⟨p, hp, ?_⟩, hpk⟩
            simp [hpk2]
        · simp at h1; subst r'
          exact ⟨(a.year, a), hnew, rfl⟩
    · simp only [hc, if_false]
      have hexy : ex.year = a.year := h.keyed _ hmem
      refine ⟨h.keyed, h.nodupKeys, ?_, ?_, ?_, ?_⟩
      · intro p hp
        exact List.mem_append_left _ (h.memDone p hp)
      · intro p hp r' hr' hy
        rcases List.mem_append.1 hr' with h2 | h2
        · exact h.maxCount p hp r' h2 hy
        · simp at h2; subst r'
          have hpk : p.1 = a.year := hy.symm
          have : p = (a.year, ex) := key_unique h.nodupKeys hp hmem (by rw [hpk])
          rw [this]
          exact Nat.le_of_not_lt hc
      · intro p hp
        obtain ⟨l1, l2, hd, hlt⟩ := h.firstWins p hp
        exact ⟨l1, l2 ++ [a], by rw [hd]; simp, hlt⟩
      · intro r' hr'
        rcases List.mem_append.1 hr' with h1 | h1
        · exact h.covers r' h1
        · simp at h1; subst r'
          exact ⟨(a.year, ex), hmem, rfl⟩

theorem by_year_inv (l : List PeriodRecord) : DedupInv (by_year l) l := by
  have main : ∀ (t : List PeriodRecord) (acc : List (String × PeriodRecord))
      (done : List PeriodRecord), DedupInv acc done →
      DedupInv (t.foldl dedupStep acc) (done ++ t) := by
    intro t
    induction t with
    | nil => intro acc done h; simpa using h
    | cons a t ih =>
      intro acc done h
      have h1 := dedupStep_inv a h
      have h2 := ih _ _ h1
      simpa using h2
  have h0 : DedupInv [] [] := by
    refine ⟨?_, ?_, ?_, ?_, ?_, ?_⟩ <;> simp
  simpa using main l [] [] h0

/-! ## Consequences for the Multi-Year Reducer -/

theorem strEq_of_data {s t : String} (h : s.data = t.data) : s = t := by
  cases s; cases t
  exact congrArg String.mk h

theorem reduce_values_sub {l : List PeriodRecord} {r : PeriodRecord}
    (h : r ∈ reduceMultiYear l) : ∃ p ∈ by_year l, p.2 = r := by
  unfold reduceMultiYear at h
  have h1 := List.take_subset 4 _ h
  have h2 := (List.mem_insertionSort recordYearGE).1 h1
  obtain ⟨p, hp, hpr⟩ := List.mem_map.1 h2
  exact ⟨p, hp, hpr⟩

theorem reduce_mem {l : List PeriodRecord} {r : PeriodRecord}
    (h : r ∈ reduceMultiYear l) : r ∈ l := by
  obtain ⟨p, hp, rfl⟩ := reduce_values_sub h
  exact (by_year_inv l).memDone p hp

theorem reduce_max {l : List PeriodRecord} {r : PeriodRecord}
    (h : r ∈ reduceMultiYear l) :
    ∀ r' ∈ l, r'.year = r.year → r'.dataCount ≤ r.dataCount := by
  obtain ⟨p, hp, rfl⟩ := reduce_values_sub h
  intro r' hr' hy
  exact (by_year_inv l).maxCount p hp r' hr' (hy.trans ((by_year_inv l).keyed p hp))

theorem reduce_first {l : List PeriodRecord} {r : PeriodRecord}
    (h : r ∈ reduceMultiYear l) :
    ∃ l1 l2, l = l1 ++ r :: l2 ∧
      ∀ r' ∈ l1, r'.year = r.year → r'.dataCount < r.dataCount := by
  obtain ⟨p, hp, rfl⟩ := reduce_values_sub h
  obtain ⟨l1, l2, hd, hlt⟩ := (by_year_inv l).firstWins p hp
  exact ⟨l1, l2, hd, fun r' h1 h2 => hlt r' h1 (h2.trans ((by_year_inv l).keyed p hp))⟩

theorem reduce_length (l : List PeriodRecord) : (reduceMultiYear l).length ≤ 4 :=
  List.length_take_le _ _

theorem by_year_values_years_nodup (l : List PeriodRecord) :
    (((by_year l).map (fun p => p.2)).map (fun r => r.year)).Nodup := by
  have heq : ((by_year l).map (fun p => p.2)).map (fun r => r.year)
      = (by_year l).map Prod.fst := by
    rw [List.map_map]
    exact List.map_congr_left (fun p hp => (by_year_inv l).keyed p hp)
  rw [heq]
  exact (by_year_inv l).nodupKeys

theorem reduce_sorted (l : List PeriodRecord) :
    (reduceMultiYear l).Pairwise recordYearGE := by
  have h := List.sorted_insertionSort recordYearGE ((by_year l).map (fun p => p.2))
  exact List.Pairwise.sublist (List.take_sublist 4 _) h

/-- The reducer's output years are strictly decreasing in the Python
string order (newest first, pairwise distinct). -/
theorem reduce_years_strict (l : List PeriodRecord) :
    (reduceMultiYear l).Pairwise (fun a b => lexLt b.year.data a.year.data = true) := by
  have hperm : List.Perm (List.insertionSort recordYearGE ((by_year l).map (fun p => p.2)))
      ((by_year l).map (fun p => p.2)) := List.perm_insertionSort _ _
  have hnd : ((List.insertionSort recordYearGE ((by_year l).map (fun p => p.2))).map
      (fun r => r.year)).Nodup :=
    ((hperm.map (fun r => r.year)).nodup_iff).2 (by_year_values_years_nodup l)
  have hne : (List.insertionSort recordYearGE ((by_year l).map (fun p => p.2))).Pairwise
      (fun a b => a.year ≠ b.year) := List.pairwise_map.1 hnd
  have hsorted := List.sorted_insertionSort recordYearGE ((by_year l).map (fun p => p.2))
  have hstrict : (List.insertionSort recordYearGE ((by_year l).map (fun p => p.2))).Pairwise
      (fun a b => lexLt b.year.data a.year.data = true) := by
    refine (List.Pairwise.and hsorted hne).imp ?_
    rintro a b ⟨hge, hneq⟩
    cases hlt : lexLt b.year.data a.year.data
    · exact absurd (strEq_of_data (lexLt_antisymm hge hlt)) hneq
    · rfl
  exact List.Pairwise.sublist (List.take_sublist 4 _) hstrict

/-! ## Idempotence of the Multi-Year Reducer -/

theorem dictFind_eq_none {α : Type} {k : String} :
    ∀ {m : List (String × α)}, (∀ p ∈ m, p.1 ≠ k) → dictFind k m = none
  | [], _ => rfl
  | (k', v) :: rest, h => by
    unfold dictFind
    have hne : k' ≠ k := h (k', v) (List.mem_cons_self _ _)
    rw [if_neg (by simpa using hne)]
    exact dictFind_eq_none (fun p hp => h p (List.mem_cons_of_mem _ hp))

theorem foldl_dedup_disjoint :
    ∀ (t : List PeriodRecord) (acc : List (String × PeriodRecord)),
    (∀ r ∈ t, ∀ p ∈ acc, p.1 ≠ r.year) → (t.map (fun r => r.year)).Nodup →
    t.foldl dedupStep acc = acc ++ t.map (fun r => (r.year, r))
  | [], acc, _, _ => by simp
  | a :: t, acc, hdisj, hnd => by
    have hfind : dictFind a.year acc = none :=
      dictFind_eq_none (fun p hp => hdisj a (List.mem_cons_self _ _) p hp)
    have hstep : dedupStep acc a = acc ++ [(a.year, a)] := by
      unfold dedupStep; rw [hfind]
    rw [List.foldl_cons, hstep]
    rw [foldl_dedup_disjoint t (acc ++ [(a.year, a)]) ?_ ?_]
    · simp
    · intro r hr p hp
      rcases List.mem_append.1 hp with h1 | h1
      · exact hdisj r (List.mem_cons_of_mem _ hr) p h1
      · simp at h1; subst h1
        intro hcontra
        have : a.year ∈ t.map (fun r => r.year) :=
          List.mem_map.2 ⟨r, hr, hcontra.symm⟩
        exact (List.nodup_cons.1 hnd).1 this
    · exact (List.nodup_cons.1 hnd).2

theorem by_year_of_nodup {l : List PeriodRecord}
    (hnd : (l.map (fun r => r.year)).Nodup) :
    by_year l = l.map (fun r => (r.year, r)) := by
  have h2 := foldl_dedup_disjoint l [] (fun r _ p hp => absurd hp (List.not_mem_nil p)) hnd
  unfold by_year
  rw [h2, List.nil_append]

theorem reduce_fixed {out : List PeriodRecord}
    (hnd : (out.map (fun r => r.year)).Nodup)
    (hsorted : out.Pairwise recordYearGE) (hlen : out.length ≤ 4) :
    reduceMultiYear out = out := by
  have hval : (by_year out).map (fun p => p.2) = out := by
    rw [by_year_of_nodup hnd, List.map_map]
    have hpt : ∀ r ∈ out,
        ((fun p : String × PeriodRecord => p.2) ∘ (fun r => (r.year, r))) r = id r :=
      fun _ _ => rfl
    rw [List.map_congr_left hpt, List.map_id]
  unfold reduceMultiYear
  rw [hval, List.Sorted.insertionSort_eq hsorted]
  exact List.take_of_length_le hlen

theorem reduce_idempotent (l : List PeriodRecord) :
    reduceMultiYear (reduceMultiYear l) = reduceMultiYear l := by
  have hstrict := reduce_years_strict l
  apply reduce_fixed
  · refine List.pairwise_map.2 (hstrict.imp ?_)
    intro a b hlt heq
    rw [heq] at hlt
    rw [lexLt_irrefl] at hlt
    cases hlt
  · exact hstrict.imp (fun hlt => lexLt_asymm hlt)
  · exact reduce_length l

/-! ## Entity Identifier Resolver

`parse_accounts_bulk.extract_company_number` (lines 114–143).  The
regex searches are modelled as leftmost-match scans; the patterns have
no alternation, so leftmost-starting-position matching is exactly
`re.search`.  Python's `\s` is modelled by `Char.isWhitespace` (the
ASCII fragment). -/

/-- `os.path.basename`: the part after the last `/`. -/
def basenameL (l : List Char) : List Char := (l.reverse.takeWhile (fun c => c ≠ '/')).reverse

/-- Leftmost match of the pattern "underscore, eight digits, underscore";
returns the captured digits. -/
def findUnd8 : List Char → Option (List Char)
  | [] => none
  | c :: rest =>
    if c = '_' ∧ (rest.take 8).length = 8 ∧ (rest.take 8).all Char.isDigit ∧
        (rest.drop 8).head? = some '_' then some (rest.take 8)
    else findUnd8 rest

/-- Leftmost run of eight digits. -/
def find8 : List Char → Option (List Char)
  | [] => none
  | c :: rest =>
    if ((c :: rest).take 8).length = 8 ∧ ((c :: rest).take 8).all Char.isDigit then
      some ((c :: rest).take 8)
    else find8 rest

/-- The separator class between a keyword and the digits. -/
def isSepClass (c : Char) : Bool := c == '>' || c == ':' || c.isWhitespace

/-- After a matched keyword: one or more separator characters, then a
greedy digit run of which at least six digits must be present and at
most eight are captured (the separator class and the digit class are
disjoint, so regex backtracking cannot rescue a failed position). -/
def numAfterKey (l : List Char) : Option (List Char) :=
  let sep := l.takeWhile isSepClass
  let after := l.dropWhile isSepClass
  let ds := after.takeWhile Char.isDigit
  if sep.isEmpty then none
  else if 6 ≤ ds.length then some (ds.take 8) else none

/-- Scan for keyword-then-number case-insensitively (the keyword is given
lower-case); a failed occurrence resumes the scan one position later,
as `re.search` does. -/
def searchKeyNum (key : List Char) : List Char → Option (List Char)
  | [] => none
  | c :: rest =>
    if lowerL ((c :: rest).take key.length) = key then
      match numAfterKey ((c :: rest).drop key.length) with
      | some ds => some ds
      | none => searchKeyNum key rest
    else searchKeyNum key rest

/-- At a `<`: the segment up to the first `>` must contain "identifier"
(case-insensitively); after the `>`, a digit run of length six to eight
followed by `<` (a longer run cannot match: the quantifier leaves a digit
where the `<` is required). -/
def identTagAt (l : List Char) : Option (List Char) :=
  let seg := l.takeWhile (fun c => c ≠ '>')
  let rest := l.dropWhile (fun c => c ≠ '>')
  let after := rest.drop 1
  if rest.head? = some '>' ∧ hasSeq "identifier".data (lowerL seg) then
    let ds := after.takeWhile Char.isDigit
    if 6 ≤ ds.length ∧ ds.length ≤ 8 ∧ (after.drop ds.length).head? = some '<' then some ds
    else none
  else none

def searchIdentTag : List Char → Option (List Char)
  | [] => none
  | c :: rest =>
    if c = '<' then
      match identTagAt rest with
      | some ds => some ds
      | none => searchIdentTag rest
    else searchIdentTag rest

/-- Python `str.zfill(8)` on a digit string. -/
def zfill8 (l : List Char) : String := ⟨List.replicate (8 - l.length) '0' ++ l⟩

/-- `extract_company_number(filepath, content_head)`: the ordered
fallback chain, first success wins. -/
def extract_company_number (filepath content_head : String) : Option String :=
  let b := basenameL filepath.data
  match findUnd8 b with
  | some ds => some ⟨ds⟩
  | none =>
    match find8 b with
    | some ds => some ⟨ds⟩
    | none =>
      match searchKeyNum "companynumber".data content_head.data with
      | some ds => some (zfill8 ds)
      | none =>
        match searchKeyNum "registerednumber".data content_head.data with
        | some ds => some (zfill8 ds)
        | none =>
          match searchIdentTag content_head.data with
          | some ds => some (zfill8 ds)
          | none => none

/-! ## Bulk parser

`parse_accounts_bulk.parse_ixbrl_fast` (lines 175–277).  As above, the
markup library is abstracted: a bulk document carries its raw content
string (used for the length guard and the identifier scan of the first
5000 characters) together with the context and fact tags the library
yields for it. -/

structure FastPeriodBlock where
  instant : Option String
  endDate : Option String
deriving DecidableEq

structure FastContextBlock where
  id : Option String
  period : Option FastPeriodBlock
  segmentWithMember : Bool
deriving DecidableEq

structure BulkDoc where
  filepath : String
  content : String
  contexts : List FastContextBlock
  facts : List FactTag
deriving DecidableEq

structure FastCtxInfo where
  date : String
  has_dimension : Bool
deriving DecidableEq

/-- The bulk `CONCEPT_MAP` (lines 50–101) flattened into (suffix, field)
pairs in its iteration order, from which `_CONCEPT_LOOKUP` is built. -/
def CONCEPT_PAIRS : List (String × String) :=
  [("NetAssetsLiabilities", "net_assets"), ("NetAssets", "net_assets"),
   ("TotalNetAssets", "net_assets"), ("NetAssetsIncludingPensionAssetLiability", "net_assets"),
   ("TotalAssets", "total_assets"),
   ("CurrentAssets", "current_assets"), ("TotalCurrentAssets", "current_assets"),
   ("FixedAssets", "fixed_assets"), ("NonCurrentAssets", "fixed_assets"),
   ("CreditorsDueWithinOneYear", "current_liabilities"),
   ("CurrentLiabilities", "current_liabilities"),
   ("CreditorAmountsFallingDueWithinOneYear", "current_liabilities"),
   ("CreditorAmountsFallingDueWithinOneYear", "current_liabilities"),
   ("CreditorsDueAfterOneYear", "non_current_liabilities"),
   ("NonCurrentLiabilities", "non_current_liabilities"),
   ("CreditorsAmountsFallingDueAfterMoreThanOneYear", "non_current_liabilities"),
   ("CreditorAmountsFallingDueAfterOneYear", "non_current_liabilities"),
   ("CashBankInHand", "cash"), ("CashCashEquivalents", "cash"),
   ("CashAtBankInHand", "cash"), ("CashBankOnHand", "cash"),
   ("RetainedEarningsAccumulatedLosses", "retained_earnings"),
   ("ProfitLossAccountReserve", "retained_earnings"),
   ("RetainedEarnings", "retained_earnings"),
   ("CalledUpShareCapital", "share_capital"), ("ShareCapital", "share_capital"),
   ("AverageNumberEmployeesDuringPeriod", "employees"),
   ("EntityAverageNumberOfEmployees", "employees"),
   ("AverageNumberOfEmployees", "employees"),
   ("Turnover", "turnover"), ("TurnoverRevenue", "turnover"), ("Revenue", "turnover"),
   ("TurnoverGrossIncome", "turnover"),
   ("ProfitLossForPeriod", "net_profit"), ("ProfitLossForYear", "net_profit"),
   ("ProfitLossForFinancialYear", "net_profit"), ("ProfitLoss", "net_profit"),
   ("TotalLiabilities", "total_liabilities")]

/-- `_CONCEPT_LOOKUP` (lines 104–107): lower-cased suffix → field,
later assignments overwriting earlier ones. -/
def CONCEPT_LOOKUP : List (String × String) :=
  CONCEPT_PAIRS.foldl (fun m p => dictInsert m ⟨lowerL p.1.data⟩ p.2) []

structure BulkRow where
  company_number : String
  period_end : String
  fields : List (String × ℚ)
deriving DecidableEq

/-- The fast context pass (lines 201–231): instant preferred over end
date, contexts with neither are discarded; dates truncated to 10
characters. -/
def parseContextsFast (blocks : List FastContextBlock) : List (String × FastCtxInfo) :=
  blocks.foldl (fun acc c =>
    match c.id with
    | none => acc
    | some cid =>
      match c.period with
      | none => acc
      | some p =>
        match p.instant with
        | some i => dictInsert acc cid ⟨⟨i.data.take 10⟩, c.segmentWithMember⟩
        | none =>
          match p.endDate with
          | some e => dictInsert acc cid ⟨⟨e.data.take 10⟩, c.segmentWithMember⟩
          | none => acc) []

/-- `by_period` update (lines 262–267): rows are created on first sight
of a date; only the first value per field per period is kept. -/
def addBulkFact (bp : List (String × BulkRow)) (cn date field : String) (v : ℚ) :
    List (String × BulkRow) :=
  match dictFind date bp with
  | none => bp ++ [(date, ⟨cn, date, [(field, v)]⟩)]
  | some row =>
    if row.fields.any (fun f => f.1 == field) then bp
    else
      bp.map (fun p =>
        if p.1 == date then (date, { row with fields := row.fields ++ [(field, v)] }) else p)

def parse_ixbrl_fast (d : BulkDoc) : List BulkRow :=
  if d.content.data.length < 200 then []
  else
    match extract_company_number d.filepath ⟨d.content.data.take 5000⟩ with
    | none => []
    | some cn =>
      let ctxs := parseContextsFast d.contexts
      if ctxs.isEmpty then []
      else
        let bp := d.facts.foldl (fun bp t =>
          match dictFind ⟨lowerL (localNameOf t.name)⟩ CONCEPT_LOOKUP with
          | none => bp
          | some field =>
            match dictFind t.contextRef ctxs with
            | none => bp
            | some ci =>
              if ci.has_dimension then bp
              else
                match parse_value_bulk t.text t.scale t.sign with
                | none => bp
                | some v => addBulkFact bp cn ci.date field v) []
        (bp.map (fun p => p.2)).filter (fun r => 2 + r.fields.length > 3)

/-! ## Net-assets acceleration

`build_features.build_financial_features`, lines 246–275: the
year-ascending non-null net-assets series `vals`, its adjacent changes
`np.diff(vals)`, and `na_accelerating = int(changes[-1] < changes[-2])`
when at least two changes exist. -/

/-- `np.diff`. -/
def diffs : List ℚ → List ℚ
  | a :: b :: rest => (b - a) :: diffs (b :: rest)
  | _ => []

/-- The `na_accelerating` flag: `some` exactly when the code sets the
key (series with at least two adjacent changes). -/
def na_accelerating (vals : List ℚ) : Option Bool :=
  match (diffs vals).reverse with
  | c1 :: c2 :: _ => some (decide (c1 < c2))
  | _ => none

/-! ## Further concrete inputs for the claims -/

/-- A document whose only record candidate carries `employees = 12` and
none of the four gatekeeper fields. -/
def employeesOnlyDoc : Document where
  contexts :=
    [ { id := some "d1", period := some ⟨some "2022-01-01", some "2022-12-31", none⟩,
        segment := false } ]
  facts :=
    [ { name := "uk:AverageNumberEmployeesDuringPeriod", contextRef := "d1", sign := "",
        scale := "0", text := "12" } ]

/-- A candidate record with every canonical field absent. -/
def emptyRecord : PeriodRecord where
  period_end := "2023-12-31"
  year := "2023"
  turnover := none
  cost_of_sales := none
  gross_profit := none
  ebit := none
  net_profit := none
  total_assets := none
  current_assets := none
  fixed_assets := none
  total_liabilities := none
  current_liabilities := none
  non_current_liabilities := none
  net_assets := none
  cash := none
  retained_earnings := none
  employees := none
  creditors_due_within_year := none
  share_capital := none

/-- A context block with an id and a period sub-block that contains
neither start/end nor instant markers. -/
def emptyPeriodCtx : ContextBlock where
  id := some "c1"
  period := some ⟨none, none, none⟩
  segment := false

/-- A bulk document with a filename holding no eight-digit run and a
content head matching no identifier rule, but with otherwise perfectly
extractable context and fact tags. -/
def unidentifiableDoc : BulkDoc where
  filepath := "accounts.html"
  content := ⟨List.replicate 250 'a'⟩
  contexts :=
    [ { id := some "c1", period := some ⟨some "2023-12-31", none⟩, segmentWithMember := false } ]
  facts :=
    [ { name := "uk:NetAssets", contextRef := "c1", sign := "", scale := "0", text := "100" },
      { name := "uk:TotalAssets", contextRef := "c1", sign := "", scale := "0", text := "200" } ]

/-! ## Numeric Decoder lemmas -/

theorem parse_value_none_iff (text scale_str sign : String) :
    parse_value text scale_str sign = none ↔
      (text.data.filter isKept = [] ∨ text.data.filter isKept = ['.'] ∨
        text.data.filter isKept = ['-'] ∨ pyFloat (text.data.filter isKept) = none) := by
  unfold parse_value
  simp only
  by_cases h1 : ((text.data.filter isKept).isEmpty || (text.data.filter isKept == ['-']) ||
      (text.data.filter isKept == ['.'])) = true
  · rw [if_pos h1]
    simp only [List.isEmpty_iff, Bool.or_eq_true, beq_iff_eq] at h1
    constructor
    · intro _
      rcases h1 with (h | h) | h
      · exact Or.inl h
      · exact Or.inr (Or.inr (Or.inl h))
      · exact Or.inr (Or.inl h)
    · intro _; rfl
  · rw [if_neg h1]
    simp only [List.isEmpty_iff, Bool.or_eq_true, beq_iff_eq, not_or] at h1
    obtain ⟨⟨hne, hnm⟩, hnd⟩ := h1
    cases hf : pyFloat (text.data.filter isKept) with
    | none => simp [hne, hnm, hnd, hf]
    | some v => simp [hne, hnm, hnd, hf]

theorem pyFloat_nil : pyFloat ([] : List Char) = none := by decide

theorem pyFloat_minus : pyFloat ['-'] = none := by decide

theorem pyFloat_dot : pyFloat ['.'] = none := by decide

/-- On every non-raising execution the collapsed decoder model agrees
with the faithful one. -/
theorem parse_valueE_ok {text scale_str sign : String} {o : Option ℚ}
    (h : parse_valueE text scale_str sign = .ok o) :
    parse_value text scale_str sign = o := by
  unfold parse_valueE at h
  unfold parse_value
  simp only at h ⊢
  by_cases h1 : ((text.data.filter isKept).isEmpty || (text.data.filter isKept == ['-']) ||
      (text.data.filter isKept == ['.'])) = true
  · rw [if_pos h1] at h ⊢
    cases h
    rfl
  · rw [if_neg h1] at h ⊢
    cases hf : pyFloat (text.data.filter isKept) with
    | none =>
      rw [hf] at h
      cases h
      rfl
    | some v =>
      rw [hf] at h
      cases hi : pyInt scale_str.data with
      | none =>
        rw [hi] at h
        cases h
        rfl
      | some k =>
        rw [hi] at h
        have h' : (if 309 ≤ k then Except.error ()
            else Except.ok (some _) : Except Unit (Option ℚ)) = Except.ok o := h
        by_cases hk : 309 ≤ k
        · rw [if_pos hk] at h'
          cases h'
        · rw [if_neg hk] at h'
          cases h'
          rfl

/-- The faithful decoder raises exactly when the cleaned text parses and
the scale parses to an integer at least 309. -/
theorem parse_valueE_error_iff (text scale_str sign : String) :
    parse_valueE text scale_str sign = .error () ↔
      (pyFloat (text.data.filter isKept)).isSome = true ∧
        ∃ k, pyInt scale_str.data = some k ∧ 309 ≤ k := by
  unfold parse_valueE
  simp only
  by_cases h1 : ((text.data.filter isKept).isEmpty || (text.data.filter isKept == ['-']) ||
      (text.data.filter isKept == ['.'])) = true
  · rw [if_pos h1]
    constructor
    · intro h
      exact Except.noConfusion h
    · rintro ⟨hsome, -⟩
      simp only [List.isEmpty_iff, Bool.or_eq_true, beq_iff_eq] at h1
      rcases h1 with (hc | hc) | hc
      · rw [hc, pyFloat_nil] at hsome
        cases hsome
      · rw [hc, pyFloat_minus] at hsome
        cases hsome
      · rw [hc, pyFloat_dot] at hsome
        cases hsome
  · rw [if_neg h1]
    cases hf : pyFloat (text.data.filter isKept) with
    | none =>
      show Except.ok none = Except.error () ↔
        (none : Option ℚ).isSome = true ∧ ∃ k, pyInt scale_str.data = some k ∧ 309 ≤ k
      simp
    | some v =>
      cases hi : pyInt scale_str.data with
      | none =>
        show (Except.ok (some _) : Except Unit (Option ℚ)) = Except.error () ↔
          (some v).isSome = true ∧ ∃ k, (none : Option ℤ) = some k ∧ 309 ≤ k
        simp
      | some k =>
        show (if 309 ≤ k then Except.error ()
            else Except.ok (some _) : Except Unit (Option ℚ)) = Except.error () ↔
          (some v).isSome = true ∧ ∃ k', (some k : Option ℤ) = some k' ∧ 309 ≤ k'
        by_cases hk : 309 ≤ k
        · rw [if_pos hk]
          simp [hk]
        · rw [if_neg hk]
          simp [hk]

/-- The faithful decoder returns "no value" under exactly the collapsed
model's condition. -/
theorem parse_valueE_ok_none_iff (text scale_str sign : String) :
    parse_valueE text scale_str sign = .ok none ↔
      (text.data.filter isKept = [] ∨ text.data.filter isKept = ['.'] ∨
        text.data.filter isKept = ['-'] ∨ pyFloat (text.data.filter isKept) = none) := by
  rw [← parse_value_none_iff text scale_str sign]
  constructor
  · intro h
    exact parse_valueE_ok h
  · intro h
    cases he : parse_valueE text scale_str sign with
    | error e =>
      cases e
      obtain ⟨hsome, -⟩ := (parse_valueE_error_iff text scale_str sign).1 he
      rcases (parse_value_none_iff text scale_str sign).1 h with hc | hc | hc | hc
      · rw [hc, pyFloat_nil] at hsome
        cases hsome
      · rw [hc, pyFloat_dot] at hsome
        cases hsome
      · rw [hc, pyFloat_minus] at hsome
        cases hsome
      · rw [hc] at hsome
        cases hsome
    | ok o =>
      have hv := parse_valueE_ok he
      rw [hv.symm.trans h]

theorem parse_value_scaled (text scale_str : String) (k : ℤ) (q : ℚ)
    (hs : pyInt scale_str.data = some k)
    (hq : pyFloat (text.data.filter isKept) = some q)
    (hnb : (text.data.contains '(' && text.data.contains ')') = false) :
    parse_value text scale_str "" = some (q * (10 : ℚ) ^ k) := by
  have hfe : pyFloat ([] : List Char) = none := by decide
  have hfm : pyFloat ['-'] = none := by decide
  have hfd : pyFloat ['.'] = none := by decide
  have e1 : (text.data.filter isKept).isEmpty = false := by
    cases hdl : (text.data.filter isKept).isEmpty
    · rfl
    · rw [List.isEmpty_iff] at hdl
      rw [hdl, hfe] at hq
      cases hq
  have e2 : (text.data.filter isKept == ['-']) = false := by
    cases hdl : text.data.filter isKept == ['-']
    · rfl
    · have hdl2 : text.data.filter isKept = ['-'] := by
        have := hdl
        rwa [beq_iff_eq] at this
      rw [hdl2, hfm] at hq
      cases hq
  have e3 : (text.data.filter isKept == ['.']) = false := by
    cases hdl : text.data.filter isKept == ['.']
    · rfl
    · have hdl2 : text.data.filter isKept = ['.'] := by
        have := hdl
        rwa [beq_iff_eq] at this
      rw [hdl2, hfd] at hq
      cases hq
  unfold parse_value
  simp only
  rw [e1, e2, e3]
  simp only [Bool.or_self, Bool.false_eq_true, if_false]
  rw [hq, hs]
  simp only [hnb]
  rfl

theorem parse_value_pos {k : ℤ} {q : ℚ} (hq : 0 < q) : 0 < q * (10 : ℚ) ^ k := by
  have h10 : (0 : ℚ) < 10 := by norm_num
  exact mul_pos hq (zpow_pos h10 k)

/-! ## Acceleration lemmas -/

theorem diffs_append (u v : ℚ) : ∀ (ys : List ℚ),
    diffs (ys ++ [u, v]) = diffs (ys ++ [u]) ++ [v - u]
  | [] => rfl
  | [_] => rfl
  | w :: x :: ys => by
    have ih := diffs_append u v (x :: ys)
    calc diffs ((w :: x :: ys) ++ [u, v])
        = (x - w) :: diffs ((x :: ys) ++ [u, v]) := rfl
      _ = (x - w) :: (diffs ((x :: ys) ++ [u]) ++ [v - u]) := by rw [ih]
      _ = diffs ((w :: x :: ys) ++ [u]) ++ [v - u] := rfl

/-! ## Entity Identifier Resolver lemmas -/

theorem findUnd8_length : ∀ {l ds : List Char}, findUnd8 l = some ds → ds.length = 8
  | [], ds, h => by simp [findUnd8] at h
  | c :: rest, ds, h => by
    rw [findUnd8] at h
    by_cases hc : c = '_' ∧ (rest.take 8).length = 8 ∧ (rest.take 8).all Char.isDigit ∧
        (rest.drop 8).head? = some '_'
    · rw [if_pos hc] at h
      cases h
      exact hc.2.1
    · rw [if_neg hc] at h
      exact findUnd8_length h

theorem find8_length : ∀ {l ds : List Char}, find8 l = some ds → ds.length = 8
  | [], ds, h => by simp [find8] at h
  | c :: rest, ds, h => by
    rw [find8] at h
    by_cases hc : ((c :: rest).take 8).length = 8 ∧ ((c :: rest).take 8).all Char.isDigit
    · rw [if_pos hc] at h
      cases h
      exact hc.1
    · rw [if_neg hc] at h
      exact find8_length h

theorem numAfterKey_length {l ds : List Char} (h : numAfterKey l = some ds) : ds.length ≤ 8 := by
  unfold numAfterKey at h
  simp only at h
  by_cases h1 : ((l.takeWhile isSepClass).isEmpty : Bool) = true
  · rw [if_pos h1] at h; cases h
  · rw [if_neg h1] at h
    by_cases h2 : 6 ≤ ((l.dropWhile isSepClass).takeWhile Char.isDigit).length
    · rw [if_pos h2] at h
      cases h
      exact List.length_take_le _ _
    · rw [if_neg h2] at h; cases h

theorem searchKeyNum_length {key : List Char} :
    ∀ {l ds : List Char}, searchKeyNum key l = some ds → ds.length ≤ 8
  | [], ds, h => by simp [searchKeyNum] at h
  | c :: rest, ds, h => by
    rw [searchKeyNum] at h
    by_cases hk : lowerL ((c :: rest).take key.length) = key
    · rw [if_pos hk] at h
      cases hm : numAfterKey ((c :: rest).drop key.length) with
      | some ds' =>
        rw [hm] at h
        cases h
        exact numAfterKey_length hm
      | none =>
        rw [hm] at h
        exact searchKeyNum_length h
    · rw [if_neg hk] at h
      exact searchKeyNum_length h

theorem identTagAt_length {l ds : List Char} (h : identTagAt l = some ds) : ds.length ≤ 8 := by
  unfold identTagAt at h
  simp only at h
  by_cases h1 : (l.dropWhile (fun c => c ≠ '>')).head? = some '>' ∧
      hasSeq "identifier".data (lowerL (l.takeWhile (fun c => c ≠ '>')))
  · rw [if_pos h1] at h
    by_cases h2 : 6 ≤ (((l.dropWhile (fun c => c ≠ '>')).drop 1).takeWhile Char.isDigit).length ∧
        (((l.dropWhile (fun c => c ≠ '>')).drop 1).takeWhile Char.isDigit).length ≤ 8 ∧
        (((l.dropWhile (fun c => c ≠ '>')).drop 1).drop
          (((l.dropWhile (fun c => c ≠ '>')).drop 1).takeWhile Char.isDigit).length).head?
          = some '<'
    · rw [if_pos h2] at h
      cases h
      exact h2.2.1
    · rw [if_neg h2] at h; cases h
  · rw [if_neg h1] at h; cases h

theorem searchIdentTag_length : ∀ {l ds : List Char}, searchIdentTag l = some ds → ds.length ≤ 8
  | [], ds, h => by simp [searchIdentTag] at h
  | c :: rest, ds, h => by
    rw [searchIdentTag] at h
    by_cases hc : c = '<'
    · rw [if_pos hc] at h
      cases hm : identTagAt rest with
      | some ds' =>
        rw [hm] at h
        cases h
        exact identTagAt_length hm
      | none =>
        rw [hm] at h
        exact searchIdentTag_length h
    · rw [if_neg hc] at h
      exact searchIdentTag_length h

theorem zfill8_length {l : List Char} (h : l.length ≤ 8) : (zfill8 l).length = 8 := by
  unfold zfill8
  show (List.replicate (8 - l.length) '0' ++ l).length = 8
  rw [List.length_append, List.length_replicate]
  omega

theorem extract_company_number_length {fp ch r : String}
    (h : extract_company_number fp ch = some r) : r.length = 8 := by
  unfold extract_company_number at h
  simp only at h
  cases h1 : findUnd8 (basenameL fp.data) with
  | some ds =>
    rw [h1] at h
    cases h
    exact findUnd8_length h1
  | none =>
    rw [h1] at h
    cases h2 : find8 (basenameL fp.data) with
    | some ds =>
      rw [h2] at h
      cases h
      exact find8_length h2
    | none =>
      rw [h2] at h
      cases h3 : searchKeyNum "companynumber".data ch.data with
      | some ds =>
        rw [h3] at h
        cases h
        exact zfill8_length (searchKeyNum_length h3)
      | none =>
        rw [h3] at h
        cases h4 : searchKeyNum "registerednumber".data ch.data with
        | some ds =>
          rw [h4] at h
          cases h
          exact zfill8_length (searchKeyNum_length h4)
        | none =>
          rw [h4] at h
          cases h5 : searchIdentTag ch.data with
          | some ds =>
            rw [h5] at h
            cases h
            exact zfill8_length (searchIdentTag_length h5)
          | none =>
            rw [h5] at h
            cases h

/-! ## Gate lemmas (minimum-presence invariant) -/

theorem recordOfPeriod_hasData {facts : List Fact} {p : String × CtxGroups} {r : PeriodRecord}
    (h : recordOfPeriod facts p = some r) : hasData r = true := by
  unfold recordOfPeriod at h
  by_cases h1 : ((p.2.duration ++ p.2.instant).isEmpty : Bool) = true
  · rw [if_pos h1] at h; cases h
  · rw [if_neg h1] at h
    simp only at h
    by_cases h2 : hasData (applyDerived (buildRecord facts p.2.duration p.2.instant p.1)) = true
    · rw [if_pos h2] at h
      cases h
      exact h2
    · rw [if_neg h2] at h; cases h

theorem extract_gate {doc : Document} {r : PeriodRecord}
    (h : r ∈ extract_financials_from_ixbrl doc) : hasData r = true := by
  unfold extract_financials_from_ixbrl at h
  simp only at h
  by_cases hf : ((parse_ixbrl doc).facts.isEmpty : Bool) = true
  · rw [if_pos hf] at h
    exact absurd h (List.not_mem_nil r)
  · rw [if_neg hf] at h
    have h2 := reduce_mem h
    obtain ⟨p, _, hpe⟩ := List.mem_filterMap.1 h2
    exact recordOfPeriod_hasData hpe

/-! ## Context Resolver lemmas -/

theorem dictInsert_mem {α : Type} {m : List (String × α)} {k : String} {v : α}
    {p : String × α} (h : p ∈ dictInsert m k v) : p = (k, v) ∨ p ∈ m := by
  unfold dictInsert at h
  by_cases hc : (m.any (fun q => q.1 == k)) = true
  · rw [if_pos hc] at h
    obtain ⟨q, hq, hqe⟩ := List.mem_map.1 h
    by_cases hqk : (q.1 == k) = true
    · rw [if_pos hqk] at hqe
      exact Or.inl hqe.symm
    · rw [if_neg hqk] at hqe
      exact Or.inr (hqe ▸ hq)
  · rw [if_neg hc] at h
    rcases List.mem_append.1 h with h1 | h1
    · exact Or.inr h1
    · simp at h1
      exact Or.inl h1

/-- The classification of a context descriptor: duration, instant, or
empty. -/
def CtxInfo.classified (i : CtxInfo) : Prop :=
  (i.startDate.isSome ∧ i.endDate.isSome ∧ i.instant = none) ∨
  (i.startDate = none ∧ i.endDate = none ∧ i.instant.isSome) ∨
  (i.startDate = none ∧ i.endDate = none ∧ i.instant = none)

theorem mkCtxInfo_classified (pb : PeriodBlock) (seg : Bool) :
    (mkCtxInfo pb seg).classified := by
  unfold mkCtxInfo CtxInfo.classified
  by_cases h1 : pb.startDate.isSome ∧ pb.endDate.isSome
  · rw [if_pos h1]
    exact Or.inl ⟨h1.1, h1.2, rfl⟩
  · rw [if_neg h1]
    by_cases h2 : pb.instant.isSome
    · rw [if_pos h2]
      exact Or.inr (Or.inl ⟨rfl, rfl, h2⟩)
    · rw [if_neg h2]
      exact Or.inr (Or.inr ⟨rfl, rfl, rfl⟩)

theorem parse_contexts_inv (doc : Document) :
    ∀ p ∈ (parse_ixbrl doc).contexts,
      (∃ b ∈ doc.contexts, b.id = some p.1 ∧
        ∃ pb, b.period = some pb ∧ p.2 = mkCtxInfo pb b.segment) ∧ p.2.classified := by
  have main : ∀ (blocks : List ContextBlock) (acc : List (String × CtxInfo)),
      (∀ b ∈ blocks, b ∈ doc.contexts) →
      (∀ p ∈ acc, (∃ b ∈ doc.contexts, b.id = some p.1 ∧
        ∃ pb, b.period = some pb ∧ p.2 = mkCtxInfo pb b.segment) ∧ p.2.classified) →
      ∀ p ∈ blocks.foldl (fun acc ctx =>
          match ctx.id with
          | none => acc
          | some cid =>
            match ctx.period with
            | none => acc
            | some pb => dictInsert acc cid (mkCtxInfo pb ctx.segment)) acc,
        (∃ b ∈ doc.contexts, b.id = some p.1 ∧
          ∃ pb, b.period = some pb ∧ p.2 = mkCtxInfo pb b.segment) ∧ p.2.classified := by
    intro blocks
    induction blocks with
    | nil => intro acc _ hacc p hp; exact hacc p hp
    | cons b t ih =>
      intro acc hsub hacc p hp
      rw [List.foldl_cons] at hp
      refine ih _ (fun bb hbb => hsub bb (List.mem_cons_of_mem _ hbb)) ?_ p hp
      intro q hq
      cases hid : b.id with
      | none =>
        rw [hid] at hq
        exact hacc q hq
      | some cid =>
        rw [hid] at hq
        cases hper : b.period with
        | none =>
          rw [hper] at hq
          exact hacc q hq
        | some pb =>
          rw [hper] at hq
          rcases dictInsert_mem hq with h1 | h1
          · subst h1
            exact ⟨⟨b, hsub b (List.mem_cons_self _ _), hid, pb, hper, rfl⟩,
              mkCtxInfo_classified pb b.segment⟩
          · exact hacc q h1
  intro p hp
  exact main doc.contexts [] (fun b hb => hb)
    (fun p hp => absurd hp (List.not_mem_nil p)) p hp

/-! ## Claim theorems -/

/-- C1: a document with one non-dimensioned duration context
(2023-01-01 → 2023-12-31) carrying a turnover fact "1,234" at scale "3"
and one non-dimensioned instant context (2023-12-31) carrying a
net-assets fact "(500)" with no scale yields exactly one PeriodRecord,
with year "2023", period_end "2023-12-31", turnover 1234000 and
net_assets -500. -/
theorem C1_end_to_end_scenario :
    extract_financials_from_ixbrl scenarioDoc = [scenarioRecord] ∧
    scenarioRecord.year = "2023" ∧ scenarioRecord.period_end = "2023-12-31" ∧
    scenarioRecord.turnover = some 1234000 ∧ scenarioRecord.net_assets = some (-500) :=
  ⟨by decide, rfl, rfl, rfl, rfl⟩

/-- C2: for every collection of candidate records the Multi-Year
Reducer's output has years pairwise distinct and strictly decreasing
(newest first, in the Python string order), length at most 4, and each
retained record is a candidate of its year with the greatest count of
non-null values, ties resolved in favour of the candidate encountered
first (every earlier same-year candidate has a strictly smaller count). -/
theorem C2_reducer_output_spec (l : List PeriodRecord) :
    (reduceMultiYear l).length ≤ 4 ∧
    (reduceMultiYear l).Pairwise (fun a b => lexLt b.year.data a.year.data = true) ∧
    ∀ r ∈ reduceMultiYear l,
      r ∈ l ∧ (∀ r' ∈ l, r'.year = r.year → r'.dataCount ≤ r.dataCount) ∧
      ∃ l1 l2, l = l1 ++ r :: l2 ∧
        ∀ r' ∈ l1, r'.year = r.year → r'.dataCount < r.dataCount :=
  ⟨reduce_length l, reduce_years_strict l,
   fun _ hr => ⟨reduce_mem hr, reduce_max hr, reduce_first hr⟩⟩

/-- Two candidate records for the same year, the first less complete. -/
def recB : PeriodRecord := { emptyRecord with turnover := some 3 }

def recA : PeriodRecord := { emptyRecord with turnover := some 1, net_assets := some 2 }

theorem C2_witness : recA ∈ [recB, recA] ∧ recB.dataCount ≤ recA.dataCount :=
  ⟨((C2_reducer_output_spec [recB, recA]).2.2 recA (by decide)).1,
   ((C2_reducer_output_spec [recB, recA]).2.2 recA (by decide)).2.1 recB (by decide) (by decide)⟩

/-- C3: every PeriodRecord returned by the extractor has at least one of
total_assets, net_assets, current_assets, turnover non-null (derived
values counting as present), and a candidate carrying only
employees = 12 is dropped from the output. -/
theorem C3_minimum_presence :
    (∀ (doc : Document), ∀ r ∈ extract_financials_from_ixbrl doc,
      r.total_assets ≠ none ∨ r.net_assets ≠ none ∨ r.current_assets ≠ none ∨
        r.turnover ≠ none) ∧
    extract_financials_from_ixbrl employeesOnlyDoc = [] := by
  constructor
  · intro doc r hr
    have h := extract_gate hr
    unfold hasData at h
    simp only [Bool.or_eq_true, Option.isSome_iff_ne_none] at h
    rcases h with ((h | h) | h) | h
    · exact Or.inl h
    · exact Or.inr (Or.inl h)
    · exact Or.inr (Or.inr (Or.inl h))
    · exact Or.inr (Or.inr (Or.inr h))
  · decide

theorem C3_witness :
    scenarioRecord.total_assets ≠ none ∨ scenarioRecord.net_assets ≠ none ∨
      scenarioRecord.current_assets ≠ none ∨ scenarioRecord.turnover ≠ none :=
  C3_minimum_presence.1 scenarioDoc scenarioRecord (by decide)

/-- C4 as stated is false on the code: with `fixed_assets` present but
equal to 0 (and `current_assets` absent), `total_assets` is absent and an
operand is present, yet the code leaves `total_assets` underived — the
guard `if fa or ca` is Python truthiness (nonzero), not presence. -/
theorem C4_counterexample :
    ({ emptyRecord with fixed_assets := some 0 } : PeriodRecord).total_assets = none ∧
    ({ emptyRecord with fixed_assets := some 0 } : PeriodRecord).fixed_assets = some 0 ∧
    (applyDerived { emptyRecord with fixed_assets := some 0 }).total_assets = none ∧
    (applyDerived { emptyRecord with fixed_assets := some 0 }).total_assets ≠
      some ((0 : ℚ) + 0) := by decide

/-- C4 amended: when `total_assets` is absent and at least one of
`fixed_assets`, `current_assets` is present with a NONZERO value, the
builder sets `total_assets` to their sum with a missing operand treated
as zero; analogously for `total_liabilities` from `current_liabilities`
and `non_current_liabilities`. -/
theorem C4_amended_derivation (r : PeriodRecord) :
    (r.total_assets = none →
      r.fixed_assets.getD 0 ≠ 0 ∨ r.current_assets.getD 0 ≠ 0 →
      (applyDerived r).total_assets =
        some (r.fixed_assets.getD 0 + r.current_assets.getD 0)) ∧
    (r.total_liabilities = none →
      r.current_liabilities.getD 0 ≠ 0 ∨ r.non_current_liabilities.getD 0 ≠ 0 →
      (applyDerived r).total_liabilities =
        some (r.current_liabilities.getD 0 + r.non_current_liabilities.getD 0)) := by
  constructor
  · intro hta hop
    have h1 : (deriveLiab r).total_assets = none := by
      rw [deriveLiab_total_assets]; exact hta
    have h2 : (deriveAssets (deriveLiab r)).total_assets =
        some (r.fixed_assets.getD 0 + r.current_assets.getD 0) := by
      unfold deriveAssets
      rw [if_pos h1]
      rw [if_pos (by rw [deriveLiab_fixed_assets, deriveLiab_current_assets]; exact hop)]
      rw [deriveLiab_fixed_assets, deriveLiab_current_assets]
    unfold applyDerived
    rw [deriveCreditors_total_assets, h2]
  · intro htl hop
    have h1 : (deriveLiab r).total_liabilities =
        some (r.current_liabilities.getD 0 + r.non_current_liabilities.getD 0) := by
      unfold deriveLiab
      rw [if_pos htl, if_pos hop]
    unfold applyDerived
    rw [deriveCreditors_total_liabilities, deriveAssets_total_liabilities, h1]

theorem C4_witness :
    (applyDerived
      { emptyRecord with fixed_assets := some 120000, current_assets := some 45000 }
      ).total_assets = some 165000 := by
  have h := (C4_amended_derivation
    { emptyRecord with fixed_assets := some 120000, current_assets := some 45000 }).1
    (by decide) (by decide)
  exact h.trans (by norm_num)

/-- C5 as stated is false on the code: the text "-5" decodes successfully
with an empty sign marker, the parseable scale "0" and no brackets, but
the returned value is negative, refuting "the returned value is
positive". -/
theorem C5_counterexample :
    parse_value "-5" "0" "" = some (-5) ∧ pyInt ("0" : String).data = some 0 ∧
      ¬(0 < (-5 : ℚ)) := by decide

/-- C5 amended: for every text whose cleaned form parses to `q`, with a
scale string parsing to the integer `s`, an empty sign marker and no
surrounding brackets, the decoder returns `q * 10 ^ s`; the result is
positive whenever `q` is positive. -/
theorem C5_amended_scale (text scale_str : String) (k : ℤ) (q : ℚ)
    (hs : pyInt scale_str.data = some k)
    (hq : pyFloat (text.data.filter isKept) = some q)
    (hnb : (text.data.contains '(' && text.data.contains ')') = false) :
    parse_value text scale_str "" = some (q * (10 : ℚ) ^ k) ∧
      (0 < q → 0 < q * (10 : ℚ) ^ k) :=
  ⟨parse_value_scaled text scale_str k q hs hq hnb, fun hpos => parse_value_pos hpos⟩

theorem C5_witness :
    parse_value "1,234" "3" "" = some ((1234 : ℚ) * (10 : ℚ) ^ (3 : ℤ)) ∧
      (0 < (1234 : ℚ) → 0 < (1234 : ℚ) * (10 : ℚ) ^ (3 : ℤ)) :=
  C5_amended_scale "1,234" "3" 3 1234 (by decide) (by decide) (by decide)

/-- C6 as stated is false on the code: the decoder is not total. In both
implementations `value *= 10 ** scale` sits in a `try` block whose
`except` clause catches only `ValueError` and `TypeError`, so when the
scale attribute parses to an integer of at least 309 the conversion of
`10 ** scale` to a float overflows the double range and the resulting
`OverflowError` escapes the decoder. Concretely, text "5" with scale
attribute "310" raises in both the single-document and the bulk decoder,
instead of returning a value or `None`. -/
theorem C6_counterexample :
    parse_valueE "5" "310" "" = Except.error () ∧
      parse_value_bulkE "5" "310" "" = Except.error () := ⟨rfl, rfl⟩

/-- C6 amended: the Numeric Decoder raises (an `OverflowError` escaping
the `ValueError`/`TypeError` handler) exactly when the cleaned text
parses as a number and the scale string parses to an integer of at
least 309; on every other input it is total, and it returns "no value"
(`none`) exactly when the cleaned string — every character that is not
a digit, decimal point or minus sign stripped — is empty, a bare ".", a
bare "-", or fails to parse as a number (on every non-raising input it
agrees with the collapsed model `parse_value`); the bulk decoder
behaves identically. -/
theorem C6_amended_totality (text scale_str sign : String) :
    (parse_valueE text scale_str sign = .error () ↔
      (pyFloat (text.data.filter isKept)).isSome = true ∧
        ∃ k, pyInt scale_str.data = some k ∧ 309 ≤ k) ∧
    (parse_valueE text scale_str sign = .ok none ↔
      (text.data.filter isKept = [] ∨ text.data.filter isKept = ['.'] ∨
        text.data.filter isKept = ['-'] ∨ pyFloat (text.data.filter isKept) = none)) ∧
    (∀ o, parse_valueE text scale_str sign = .ok o →
      parse_value text scale_str sign = o) ∧
    parse_value_bulkE text scale_str sign = parse_valueE text scale_str sign :=
  ⟨parse_valueE_error_iff text scale_str sign,
   parse_valueE_ok_none_iff text scale_str sign,
   fun _ h => parse_valueE_ok h,
   parse_value_bulkE_eq text scale_str sign⟩

theorem C6_witness :
    parse_value "1,234" "3" "" = some ((1234000 : ℚ)) :=
  (C6_amended_totality "1,234" "3" "").2.2.1 (some 1234000) (by rfl)

/-- C7 as stated is false on the code: a context block with an identifier
and a period sub-block that contains neither start/end nor instant
markers is NOT discarded — it appears in the output with an empty
descriptor (no dates at all). -/
theorem C7_counterexample :
    dictFind "c1" (parse_ixbrl { contexts := [emptyPeriodCtx], facts := [] }).contexts
      = some ⟨none, none, none, false⟩ ∧
    ¬(((⟨none, none, none, false⟩ : CtxInfo).startDate.isSome ∧
        (⟨none, none, none, false⟩ : CtxInfo).endDate.isSome) ∨
      (⟨none, none, none, false⟩ : CtxInfo).instant.isSome) := by decide

/-- C7 amended: every entry of the Context Resolver's output comes from a
context block with an identifier and a period sub-block (blocks lacking
either are discarded); the descriptor is a duration (start and end, no
instant) when both markers are present, an instant descriptor otherwise
when an instant marker is present, and otherwise an EMPTY descriptor —
a context whose period has no usable markers is kept with an empty
descriptor rather than discarded. -/
theorem C7_amended_contexts (doc : Document) :
    ∀ p ∈ (parse_ixbrl doc).contexts,
      (∃ b ∈ doc.contexts, b.id = some p.1 ∧ ∃ pb, b.period = some pb ∧
        p.2 = mkCtxInfo pb b.segment) ∧
      ((p.2.startDate.isSome ∧ p.2.endDate.isSome ∧ p.2.instant = none) ∨
       (p.2.startDate = none ∧ p.2.endDate = none ∧ p.2.instant.isSome) ∨
       (p.2.startDate = none ∧ p.2.endDate = none ∧ p.2.instant = none)) :=
  fun p hp => parse_contexts_inv doc p hp

theorem C7_witness :
    (∃ b ∈ scenarioDoc.contexts, b.id = some "d1" ∧ ∃ pb, b.period = some pb ∧
      (⟨some "2023-01-01", some "2023-12-31", none, false⟩ : CtxInfo)
        = mkCtxInfo pb b.segment) ∧
    (((⟨some "2023-01-01", some "2023-12-31", none, false⟩ : CtxInfo).startDate.isSome ∧
      (⟨some "2023-01-01", some "2023-12-31", none, false⟩ : CtxInfo).endDate.isSome ∧
      (⟨some "2023-01-01", some "2023-12-31", none, false⟩ : CtxInfo).instant = none) ∨
     ((⟨some "2023-01-01", some "2023-12-31", none, false⟩ : CtxInfo).startDate = none ∧
      (⟨some "2023-01-01", some "2023-12-31", none, false⟩ : CtxInfo).endDate = none ∧
      (⟨some "2023-01-01", some "2023-12-31", none, false⟩ : CtxInfo).instant.isSome) ∨
     ((⟨some "2023-01-01", some "2023-12-31", none, false⟩ : CtxInfo).startDate = none ∧
      (⟨some "2023-01-01", some "2023-12-31", none, false⟩ : CtxInfo).endDate = none ∧
      (⟨some "2023-01-01", some "2023-12-31", none, false⟩ : CtxInfo).instant = none)) :=
  C7_amended_contexts scenarioDoc
    ("d1", ⟨some "2023-01-01", some "2023-12-31", none, false⟩) (by decide)

/-- C8 as stated is false on the code: for the series 0, 2, 7 the latest
change (5) exceeds the prior change (2) in magnitude and both are
positive, so the claim demands the flag be true; the code computes
`changes[-1] < changes[-2]`, which is false here. -/
theorem C8_counterexample :
    na_accelerating [0, 2, 7] = some false ∧
      |(7 : ℚ) - 2| > |(2 : ℚ) - 0| ∧ 0 < (7 : ℚ) - 2 ∧ 0 < (2 : ℚ) - 0 :=
  ⟨by decide, by norm_num, by norm_num, by norm_num⟩

/-- C8 amended: for every ordered series with at least three entries the
flag is defined, and it is true if and only if the latest change is
strictly LESS than the prior change (decline getting steeper), with no
magnitude or shared-sign condition. -/
theorem C8_amended_acceleration (xs : List ℚ) (a b c : ℚ) :
    na_accelerating (xs ++ [a, b, c]) = some (decide (c - b < b - a)) ∧
      (na_accelerating (xs ++ [a, b, c]) = some true ↔ c - b < b - a) := by
  have h1 : diffs (xs ++ [a, b, c]) = (diffs (xs ++ [a]) ++ [b - a]) ++ [c - b] := by
    have hx := diffs_append b c (xs ++ [a])
    have hy := diffs_append a b xs
    calc diffs (xs ++ [a, b, c])
        = diffs ((xs ++ [a]) ++ [b, c]) := by rw [List.append_assoc]; rfl
      _ = diffs ((xs ++ [a]) ++ [b]) ++ [c - b] := hx
      _ = diffs (xs ++ [a, b]) ++ [c - b] := by rw [List.append_assoc]; rfl
      _ = (diffs (xs ++ [a]) ++ [b - a]) ++ [c - b] := by rw [hy]
  have hfst : na_accelerating (xs ++ [a, b, c]) = some (decide (c - b < b - a)) := by
    unfold na_accelerating
    rw [h1]
    simp [List.reverse_append]
  refine ⟨hfst, ?_⟩
  rw [hfst]
  simp only [Option.some.injEq]
  constructor
  · intro h
    exact of_decide_eq_true h
  · intro h
    rw [decide_eq_true h]

/-- C9: the Multi-Year Reducer is idempotent — applied to its own output
it returns that output unchanged. -/
theorem C9_reducer_idempotent (l : List PeriodRecord) :
    reduceMultiYear (reduceMultiYear l) = reduceMultiYear l := reduce_idempotent l

/-- C10: the Entity Identifier Resolver tries its rules in order with
first success winning (the underscore-delimited rule beats the bare
8-digit rule on "12345678_87654321_x.html"); the spec's filename yields
"00012345" regardless of content; every successful result has exactly 8
characters (padded with leading zeros where needed); and a document with
no 8-digit run in its filename and no in-document identifier is
unidentifiable and contributes zero records. -/
theorem C10_identifier_chain :
    (∀ content : String,
      extract_company_number "Prod224_1_00012345_20231231.html" content = some "00012345") ∧
    (∀ fp ch r : String, extract_company_number fp ch = some r → r.length = 8) ∧
    extract_company_number "12345678_87654321_x.html" "" = some "87654321" ∧
    extract_company_number unidentifiableDoc.filepath
      ⟨unidentifiableDoc.content.data.take 5000⟩ = none ∧
    parse_ixbrl_fast unidentifiableDoc = [] :=
  ⟨fun _ => rfl, fun _ _ _ h => extract_company_number_length h, by decide, by decide, by decide⟩

theorem C10_witness : ("00012345" : String).length = 8 :=
  C10_identifier_chain.2.1 "Prod224_1_00012345_20231231.html" "" "00012345"
    (C10_identifier_chain.1 "")

end Clearview
